import Mathlib

/-!
Verification development for the unstuck remediation core
(pkg/types, pkg/planner, pkg/applier).

The Go source is shallowly embedded: the string-typed enums
(`RiskLevel`, `ActionType`, `TargetType`) stay strings, the int-typed
`EscalationLevel` stays `Int`, Go slices become `List`, Go maps become
association lists folded in a fixed iteration order (the functions
modelled here are iteration-order independent), and the cluster /
stdin side effects of the applier are supplied by explicit oracles.
Go library helpers (`strings.ToLower`, `strings.Split`, byte-wise
string comparison, `fmt.Sprintf("%03d", ·)`) are re-implemented below
by structural recursion so that every definition evaluates inside the
kernel.
-/

namespace Unstuck

/-! ### Models of the Go `strings` helpers -/

/-- Model of Go's byte-wise string comparison `a < b`, on code points
(UTF-8 byte order and code-point order agree). -/
def charsLt : List Char → List Char → Bool
  | [], [] => false
  | [], _ :: _ => true
  | _ :: _, [] => false
  | a :: as, b :: bs =>
    if a.toNat < b.toNat then true
    else if b.toNat < a.toNat then false
    else charsLt as bs

def strLt (a b : String) : Bool := charsLt a.data b.data

/-- Model of `strings.ToLower` (ASCII case folding, which is all the
kinds in this code base use). -/
def strToLower (s : String) : String := String.mk (s.data.map Char.toLower)

/-- Model of `strings.Split(s, "/")`. -/
def splitSlashAux : List Char → List Char → List (List Char)
  | [], acc => [acc.reverse]
  | c :: cs, acc => if c = '/' then acc.reverse :: splitSlashAux cs [] else splitSlashAux cs (c :: acc)

def splitOnSlash (s : String) : List String := (splitSlashAux s.data []).map String.mk

def digitChar (n : Nat) : Char := Char.ofNat (48 + n)

def natToStrAux : Nat → Nat → List Char → List Char
  | 0, _, acc => acc
  | fuel + 1, n, acc =>
    if n < 10 then digitChar n :: acc
    else natToStrAux fuel (n / 10) (digitChar (n % 10) :: acc)

/-- Decimal rendering of a natural number (model of `fmt.Sprintf("%d", n)`). -/
def natToStr (n : Nat) : String := String.mk (natToStrAux (n + 1) n [])

/-- Zero-pad to width three (model of the `%03d` format verb). -/
def pad3 (s : String) : String :=
  if 3 ≤ s.length then s else String.mk (List.replicate (3 - s.length) '0') ++ s

/-- `s` starts with `sub` (helper for `strings.Contains`). -/
def charsLeadsWith : List Char → List Char → Bool
  | _, [] => true
  | [], _ :: _ => false
  | a :: as, b :: bs => if a = b then charsLeadsWith as bs else false

def charsHasSub : List Char → List Char → Bool
  | [], sub => sub.isEmpty
  | c :: rest, sub => charsLeadsWith (c :: rest) sub || charsHasSub rest sub

/-- Model of `strings.Contains`. -/
def strContains (s sub : String) : Bool := charsHasSub s.data sub.data

def lastCharIs (s : String) (c : Char) : Bool :=
  match s.data.getLast? with
  | some c2 => c2 = c
  | none => false

def dropLastChar (s : String) : String := String.mk s.data.dropLast

/-! ### Data model (pkg/types) -/

/-- `types.ResourceRef`.  The Go field `Namespace` is renamed `nspace`
because `namespace` is a Lean keyword. -/
structure ResourceRef where
  kind : String
  apiVersion : String
  nspace : String
  name : String
deriving DecidableEq, Inhabited

/-- `ResourceRef.String()`. -/
def ResourceRef.str (r : ResourceRef) : String :=
  if r.nspace ≠ "" then r.kind ++ "/" ++ r.nspace ++ "/" ++ r.name
  else r.kind ++ "/" ++ r.name

/-- `types.Blocker`: the embedded `ResourceRef` becomes the `ref` field.
Display-only fields the planner never reads (owner references, age) are
omitted. -/
structure Blocker where
  ref : ResourceRef
  finalizers : List String
  deletionTimestamp : Option Nat
deriving DecidableEq, Inhabited

/-- `types.DiscoveryFailure`. -/
structure DiscoveryFailure where
  groupVersion : String
  resource : String
  error : String
deriving DecidableEq, Inhabited

/-- `types.ControllerStatus`. -/
structure ControllerStatus where
  name : String
  nspace : String
  available : Bool
  ready : Bool
  message : String
deriving DecidableEq, Inhabited

/-- `types.TargetType` is a string type in Go. -/
def TargetTypeNamespace : String := "namespace"

def TargetTypeCRD : String := "crd"

def TargetTypeResource : String := "resource"

/-- `types.DiagnosisReport` (the fields the planner consumes; timestamps
are opaque naturals). -/
structure DiagnosisReport where
  target : ResourceRef
  targetType : String
  status : String
  deletionTimestamp : Option Nat
  rootCause : String
  finalizers : List String
  blockers : List Blocker
  discoveryFailures : List DiscoveryFailure
  controllers : List ControllerStatus
  instanceCount : Nat
deriving DecidableEq, Inhabited

/-- `DiagnosisReport.IsHealthy`. -/
def DiagnosisReport.IsHealthy (r : DiagnosisReport) : Bool :=
  decide (r.status = "Active") || decide (r.status = "Bound") || decide (r.status = "")

/-- `DiagnosisReport.IsTerminating`. -/
def DiagnosisReport.IsTerminating (r : DiagnosisReport) : Bool :=
  decide (r.status = "Terminating")

/-- `DiagnosisReport.HasDiscoveryFailures`. -/
def DiagnosisReport.HasDiscoveryFailures (r : DiagnosisReport) : Bool :=
  !r.discoveryFailures.isEmpty

/-- `types.RiskLevel` constants (string type in Go). -/
def RiskNone : String := "none"

def RiskLow : String := "low"

def RiskMedium : String := "medium"

def RiskHigh : String := "high"

def RiskCritical : String := "critical"

/-- `types.EscalationLevel` constants (`type EscalationLevel int`). -/
def EscalationInfo : Int := 0

def EscalationClean : Int := 1

def EscalationFinalizer : Int := 2

def EscalationCRD : Int := 3

def EscalationForce : Int := 4

/-- `types.ActionType` constants (string type in Go). -/
def ActionInspect : String := "inspect"

def ActionList : String := "list"

def ActionPatch : String := "patch"

def ActionDelete : String := "delete"

def ActionFinalize : String := "finalize"

def ActionWait : String := "wait"

/-- `types.Action` (the optional `DependsOn`/`Timeout` fields, which no
modelled code path reads or writes, are omitted). -/
structure Action where
  id : String
  type : String
  escalationLevel : Int
  description : String
  target : ResourceRef
  operation : String
  command : String
  risk : String
  requiresForce : Bool
  expectedResult : String
deriving DecidableEq, Inhabited

/-- `types.Plan`. -/
structure Plan where
  target : ResourceRef
  riskLevel : String
  maxEscalation : Int
  actions : List Action
  commands : List String
deriving DecidableEq, Inhabited

/-! ### Risk classifier (pkg/planner/risk.go) -/

/-- The rank table inside `compareRisk` (Go map lookup; a miss yields
rank 0). -/
def riskRank (r : String) : Int :=
  if r = RiskNone then 0
  else if r = RiskLow then 1
  else if r = RiskMedium then 2
  else if r = RiskHigh then 3
  else if r = RiskCritical then 4
  else 0

/-- `planner.compareRisk`. -/
def compareRisk (a b : String) : Int :=
  if riskRank a < riskRank b then -1
  else if riskRank b < riskRank a then 1
  else 0

/-- `planner.CalculateRiskLevel`. -/
def CalculateRiskLevel (actions : List Action) : String :=
  if actions.isEmpty then RiskNone
  else actions.foldl (fun maxRisk action => if 0 < compareRisk action.risk maxRisk then action.risk else maxRisk) RiskNone

/-- `planner.GenerateCommands`. -/
def GenerateCommands (actions : List Action) : List String :=
  actions.foldl (fun commands action => if action.command ≠ "" then commands ++ [action.command] else commands) []

/-- `planner.RiskLevelFromEscalation`. -/
def RiskLevelFromEscalation (level : Int) : String :=
  if level = EscalationInfo then RiskNone
  else if level = EscalationClean then RiskLow
  else if level = EscalationFinalizer then RiskMedium
  else if level = EscalationCRD then RiskHigh
  else if level = EscalationForce then RiskCritical
  else RiskNone

/-- `planner.FilterActionsByMaxLevel`. -/
def FilterActionsByMaxLevel (actions : List Action) (maxLevel : Int) : List Action :=
  actions.foldl (fun filtered action => if action.escalationLevel ≤ maxLevel then filtered ++ [action] else filtered) []

/-- `planner.HasForceActions`. -/
def HasForceActions (actions : List Action) : Bool :=
  actions.any (fun action => action.requiresForce)

/-! ### Dependency orderer (pkg/planner/ordering.go) -/

/-- `planner.resourcePriority`: the switch on `strings.ToLower(kind)`. -/
def resourcePriority (kind : String) : Int :=
  let k := strToLower kind
  if k = "pod" ∨ k = "configmap" ∨ k = "secret" ∨ k = "service" ∨ k = "endpoint" ∨ k = "endpoints" then 10
  else if k = "deployment" ∨ k = "statefulset" ∨ k = "daemonset" ∨ k = "replicaset" ∨ k = "job" ∨ k = "cronjob" then 20
  else if k = "certificate" ∨ k = "issuer" ∨ k = "clusterissuer" then 30
  else if k = "customresourcedefinition" then 100
  else if k = "namespace" then 200
  else 50

/-- `planner.resourceKey`. -/
def resourceKey (ref : ResourceRef) : String :=
  if ref.nspace ≠ "" then ref.kind ++ "/" ++ ref.nspace ++ "/" ++ ref.name
  else ref.kind ++ "/" ++ ref.name

/-- The `less` closure passed to `sort.SliceStable` in
`OrderByDependencies`. -/
def actionLess (x y : Action) : Bool :=
  if x.escalationLevel ≠ y.escalationLevel then decide (x.escalationLevel < y.escalationLevel)
  else if resourcePriority x.target.kind ≠ resourcePriority y.target.kind then
    decide (resourcePriority x.target.kind < resourcePriority y.target.kind)
  else strLt x.target.name y.target.name

/-- The non-strict order induced by `actionLess`; `sort.SliceStable`
with a `less` function is the stable sort for exactly this relation. -/
def actionLe (x y : Action) : Prop := actionLess y x = false

instance : DecidableRel actionLe := fun x y => inferInstanceAs (Decidable (actionLess y x = false))

/-- `planner.OrderByDependencies` (the `actionMap` the Go code builds
first is dead local state and is omitted; `sort.SliceStable` is
modelled by a stable insertion sort). -/
def OrderByDependencies (actions : List Action) : List Action :=
  if actions.isEmpty then actions
  else actions.insertionSort actionLe

/-! ### Planner (pkg/planner/planner.go) -/

/-- `planner.Planner` (configuration captured by `NewPlanner`). -/
structure Planner where
  maxEscalation : Int
  allowForce : Bool
deriving DecidableEq, Inhabited

/-- `planner.generatePatchCommand`. -/
def generatePatchCommand (target : ResourceRef) : String :=
  let kind := if target.kind = "" then "resource" else target.kind
  let cmd := "kubectl patch " ++ kind ++ " " ++ target.name
  let cmd := if target.nspace ≠ "" then cmd ++ " -n " ++ target.nspace else cmd
  cmd ++ " -p \x27\x7b\"metadata\":\x7b\"finalizers\":null\x7d\x7d\x27 --type=merge"

/-- `planner.generateCRDPatchCommand`. -/
def generateCRDPatchCommand (crdName : String) : String :=
  "kubectl patch crd " ++ crdName ++ " -p \x27\x7b\"metadata\":\x7b\"finalizers\":null\x7d\x7d\x27 --type=merge"

/-- `planner.generateForceFinalize`. -/
def generateForceFinalize (namespaceName : String) : String :=
  "kubectl get namespace " ++ namespaceName ++
    " -o json | jq \x27.spec.finalizers = []\x27 | kubectl replace --raw \"/api/v1/namespaces/" ++
    namespaceName ++ "/finalize\" -f -"

/-- `planner.hasAvailableController`. -/
def hasAvailableController (diagnosis : DiagnosisReport) : Bool :=
  diagnosis.controllers.any (fun ctrl => ctrl.available && ctrl.ready)

/-- `(*Planner).infoActions`. -/
def infoActions (diagnosis : DiagnosisReport) : List Action :=
  [{ id := ""
     type := ActionInspect
     escalationLevel := EscalationInfo
     description := "Inspect " ++ diagnosis.targetType ++ " \"" ++ diagnosis.target.name ++ "\""
     target := diagnosis.target
     operation := "inspect"
     command := ""
     risk := RiskNone
     requiresForce := false
     expectedResult := "Gather current state information" }] ++
  (if 0 < diagnosis.blockers.length then
    [{ id := ""
       type := ActionList
       escalationLevel := EscalationInfo
       description := "List " ++ natToStr diagnosis.blockers.length ++ " blocking resources"
       target := diagnosis.target
       operation := "list-blockers"
       command := ""
       risk := RiskNone
       requiresForce := false
       expectedResult := "Enumerate resources preventing deletion" }]
   else [])

/-- `(*Planner).cleanPathActions`. -/
def cleanPathActions (diagnosis : DiagnosisReport) : List Action :=
  [{ id := ""
     type := ActionWait
     escalationLevel := EscalationClean
     description := "Wait for controller to process finalizers"
     target := diagnosis.target
     operation := "wait-controller"
     command := ""
     risk := RiskLow
     requiresForce := false
     expectedResult := "Controller removes finalizers naturally" }]

/-- `(*Planner).finalizerRemovalAction`. -/
def finalizerRemovalAction (blocker : Blocker) (nspace : String) : Action :=
  let ns := if blocker.ref.nspace = "" then nspace else blocker.ref.nspace
  let target : ResourceRef :=
    { kind := blocker.ref.kind
      apiVersion := blocker.ref.apiVersion
      nspace := ns
      name := blocker.ref.name }
  { id := ""
    type := ActionPatch
    escalationLevel := EscalationFinalizer
    description := "Remove finalizers from " ++ target.str
    target := target
    operation := "remove-finalizers"
    command := generatePatchCommand target
    risk := RiskMedium
    requiresForce := false
    expectedResult := "Finalizers removed, object deletion proceeds" }

/-- `(*Planner).crdFinalizerAction`. -/
def crdFinalizerAction (target : ResourceRef) : Action :=
  { id := ""
    type := ActionPatch
    escalationLevel := EscalationCRD
    description := "Remove cleanup finalizer from CRD " ++ target.name
    target :=
      { kind := "CustomResourceDefinition"
        apiVersion := "apiextensions.k8s.io/v1"
        nspace := ""
        name := target.name }
    operation := "remove-crd-finalizer"
    command := generateCRDPatchCommand target.name
    risk := RiskHigh
    requiresForce := true
    expectedResult := "CRD cleanup finalizer removed, CR data may be orphaned" }

/-- `(*Planner).forceFinalize`. -/
def forceFinalize (namespaceName : String) : Action :=
  { id := ""
    type := ActionFinalize
    escalationLevel := EscalationForce
    description := "Force-finalize namespace " ++ namespaceName
    target :=
      { kind := "Namespace"
        apiVersion := "v1"
        nspace := ""
        name := namespaceName }
    operation := "force-finalize"
    command := generateForceFinalize namespaceName
    risk := RiskCritical
    requiresForce := true
    expectedResult := "Namespace deleted, remaining resources abandoned" }

/-- The action accumulation of `(*Planner).Plan` (the `var actions`
slice and the five gated `append` blocks, in source order). -/
def planActions (p : Planner) (d : DiagnosisReport) : List Action :=
  let actions := infoActions d
  let actions := actions ++
    (if EscalationClean ≤ p.maxEscalation then
      (if hasAvailableController d then cleanPathActions d else [])
     else [])
  let actions := actions ++
    (if EscalationFinalizer ≤ p.maxEscalation then
      d.blockers.map (fun blocker => finalizerRemovalAction blocker d.target.nspace)
     else [])
  let actions := actions ++
    (if EscalationCRD ≤ p.maxEscalation ∧ p.allowForce = true then
      (if d.targetType = TargetTypeCRD then [crdFinalizerAction d.target] else [])
     else [])
  let actions := actions ++
    (if EscalationForce ≤ p.maxEscalation ∧ p.allowForce = true then
      (if d.targetType = TargetTypeNamespace ∧ d.HasDiscoveryFailures = true then
        [forceFinalize d.target.name]
       else [])
     else [])
  actions

/-- The ID assignment loop of `(*Planner).Plan`
(`fmt.Sprintf("action-%03d", i+1)`), started at `i + 1 = 1`. -/
def assignIDs : Nat → List Action → List Action
  | _, [] => []
  | i, a :: rest => { a with id := "action-" ++ pad3 (natToStr i) } :: assignIDs (i + 1) rest

/-- `(*Planner).Plan`.  A nil diagnosis is `none`; the healthy early
return hands back the freshly initialised plan (whose `RiskLevel` is
the Go zero value `""`). -/
def Planner.Plan (p : Planner) (diagnosis : Option DiagnosisReport) : Except String Plan :=
  match diagnosis with
  | none => Except.error "diagnosis report is nil"
  | some d =>
    if d.IsHealthy then
      Except.ok
        { target := d.target
          riskLevel := ""
          maxEscalation := p.maxEscalation
          actions := []
          commands := [] }
    else
      let orderedActions := OrderByDependencies (planActions p d)
      let withIDs := assignIDs 1 orderedActions
      Except.ok
        { target := d.target
          riskLevel := CalculateRiskLevel withIDs
          maxEscalation := p.maxEscalation
          actions := withIDs
          commands := GenerateCommands withIDs }

/-- The `.ok` payload of `Planner.Plan` on a non-nil diagnosis (total
because only `none` produces an error). -/
def planOf (p : Planner) (d : DiagnosisReport) : Plan :=
  match Planner.Plan p (some d) with
  | Except.ok plan => plan
  | Except.error _ => default

/-! ### Topological sort (pkg/planner/ordering.go)

Go maps become association lists over string keys, folded in the order
the entries are supplied; the algorithm re-sorts its queue at every
step, so the modelled order is the deterministic one the source aims
for. -/

def alookup {α : Type} : List (String × α) → String → Option α
  | [], _ => none
  | (k2, v) :: rest, k => if k2 = k then some v else alookup rest k

def aset {α : Type} : List (String × α) → String → α → List (String × α)
  | [], k, v => [(k, v)]
  | (k2, v2) :: rest, k, v =>
    if k2 = k then (k2, v) :: rest else (k2, v2) :: aset rest k v

/-- The in-degree initialisation loop (`inDegree[key] = 0` if absent). -/
def initDegrees : List Action → List (String × Int) → List (String × Int)
  | [], m => m
  | a :: rest, m =>
    let k := resourceKey a.target
    match alookup m k with
    | some _ => initDegrees rest m
    | none => initDegrees rest (m ++ [(k, 0)])

/-- One owner-reference entry of the edge-building loop: for each owner
that is a known node, `inDegree[key]++` and `dependents[owner] += key`. -/
def addEdgesEntry (key : String) (owners : List String)
    (st : List (String × Int) × List (String × List String)) :
    List (String × Int) × List (String × List String) :=
  owners.foldl
    (fun st owner =>
      match alookup st.1 owner with
      | some _ =>
        (aset st.1 key ((alookup st.1 key).getD 0 + 1),
         aset st.2 owner ((alookup st.2 owner).getD [] ++ [key]))
      | none => st)
    st

def buildEdges (ownerRefs : List (String × List String)) (deg0 : List (String × Int)) :
    List (String × Int) × List (String × List String) :=
  ownerRefs.foldl (fun st e => addEdgesEntry e.1 e.2 st) (deg0, [])

/-- Keys of in-degree zero (the initial Kahn queue, before sorting). -/
def zeroKeys (m : List (String × Int)) : List String :=
  m.foldl (fun q kv => if kv.2 = 0 then q ++ [kv.1] else q) []

def strLe (a b : String) : Prop := strLt b a = false

instance : DecidableRel strLe := fun a b => inferInstanceAs (Decidable (strLt b a = false))

/-- `sort.Strings` (ascending byte-lexicographic order). -/
def sortStrings (l : List String) : List String := l.insertionSort strLe

/-- The inner dependents loop of one Kahn iteration: decrement each
dependent, collecting those that hit exactly zero. -/
def processDeps : List String → List (String × Int) → List String → List (String × Int) × List String
  | [], deg, newKeys => (deg, newKeys)
  | dep :: rest, deg, newKeys =>
    let v := (alookup deg dep).getD 0 - 1
    let deg2 := aset deg dep v
    if v = 0 then processDeps rest deg2 (newKeys ++ [dep])
    else processDeps rest deg2 newKeys

/-- The Kahn worklist loop (`for len(queue) > 0`), with fuel standing in
for the termination measure; `kahnFuel` below always suffices because a
key is enqueued at most once. -/
def kahnLoop : Nat → List String → List (String × Int) → List (String × List String) → List String → List String
  | 0, _, _, _, acc => acc
  | _ + 1, [], _, _, acc => acc
  | fuel + 1, current :: rest, deg, deps, acc =>
    let pr := processDeps ((alookup deps current).getD []) deg []
    kahnLoop fuel (sortStrings (rest ++ pr.2)) pr.1 deps (acc ++ [current])

def kahnFuel (m : List (String × Int)) : Nat :=
  m.foldl (fun acc kv => acc + 1 + kv.2.toNat) 0

/-- The result-assembly loop mapping sorted keys back to actions
(`actionMap` overwrites on duplicate keys, `seen` deduplicates). -/
def collectSorted (amap : List (String × Action)) :
    List String → List Action → List String → List Action × List String
  | [], res, seen => (res, seen)
  | k :: rest, res, seen =>
    match alookup amap k with
    | some a =>
      if k ∈ seen then collectSorted amap rest res seen
      else collectSorted amap rest (res ++ [a]) (seen ++ [k])
    | none => collectSorted amap rest res seen

def buildActionMap : List Action → List (String × Action) → List (String × Action)
  | [], m => m
  | a :: rest, m => buildActionMap rest (aset m (resourceKey a.target) a)

/-- The final loop appending actions whose key never entered the sorted
key list (`seen` is not updated there in the source either). -/
def addLeftovers (seen : List String) : List Action → List Action → List Action
  | [], res => res
  | a :: rest, res =>
    if resourceKey a.target ∈ seen then addLeftovers seen rest res
    else addLeftovers seen rest (res ++ [a])

/-- `planner.TopologicalSort`. -/
def TopologicalSort (actions : List Action) (ownerRefs : List (String × List String)) : List Action :=
  if actions.isEmpty then actions
  else if ownerRefs.isEmpty then OrderByDependencies actions
  else
    let deg0 := initDegrees actions []
    let st := buildEdges ownerRefs deg0
    let queue := sortStrings (zeroKeys st.1)
    let sortedKeys := (kahnLoop (kahnFuel st.1) queue st.1 st.2 []).reverse
    let amap := buildActionMap actions []
    let pr := collectSorted amap sortedKeys [] []
    addLeftovers pr.2 actions pr.1

/-! ### Executor (pkg/applier/executor.go)

Only the pure parts (GVR resolution, pluralisation) and the shape of the
branches the claims are about are modelled; the cluster round-trips are
oracles: an oracle returning `some msg` is a client call that failed with
that error string, `none` is success. -/

/-- `schema.GroupVersionResource`. -/
structure GroupVersionResource where
  group : String
  version : String
  resource : String
deriving DecidableEq, Inhabited

/-- `applier.pluralize`. -/
def pluralize (kind : String) : String :=
  let lower := strToLower kind
  if lower = "endpoints" then "endpoints"
  else if lower = "ingress" then "ingresses"
  else if lower = "networkpolicy" then "networkpolicies"
  else if lower = "podsecuritypolicy" then "podsecuritypolicies"
  else if lower = "resourcequota" then "resourcequotas"
  else if lower = "limitrange" then "limitranges"
  else if lastCharIs lower 's' then lower ++ "es"
  else if lastCharIs lower 'y' then dropLastChar lower ++ "ies"
  else lower ++ "s"

/-- `(*Executor).resolveGVR`: Go returns a `(GroupVersionResource,
error)` pair, modelled as a pair with an `Option String` error slot. -/
def resolveGVR (target : ResourceRef) : GroupVersionResource × Option String :=
  let gv := if target.apiVersion = "" then "v1" else target.apiVersion
  let parts := splitOnSlash gv
  let gvp : String × String :=
    match parts with
    | [v] => ("", v)
    | g :: v :: _ => (g, v)
    | [] => ("", "")
  ({ group := gvp.1, version := gvp.2, resource := pluralize target.kind }, none)

/-- The default (dynamic-client) branch of `(*Executor).verifyDeleted`:
`getRes` is the dynamic `Get` (`some msg` = error).  An unresolvable GVR
is treated as "already gone". -/
def verifyDeletedDynamic (getRes : GroupVersionResource → String → String → Option String)
    (target : ResourceRef) : Bool × Option String :=
  let r := resolveGVR target
  match r.2 with
  | some _ => (true, none)
  | none =>
    match getRes r.1 target.nspace target.name with
    | some e => if strContains e "not found" then (true, none) else (false, some e)
    | none => (false, none)

/-- `(*Executor).patchDynamicResource`: `patch` is the dynamic merge
patch call. -/
def patchDynamicResource (patch : GroupVersionResource → String → String → Option String)
    (target : ResourceRef) : Option String :=
  let r := resolveGVR target
  match r.2 with
  | some e => some ("failed to resolve GVR: " ++ e)
  | none => patch r.1 target.nspace target.name

/-! ### Applier (pkg/applier/applier.go)

The run loop's effects are supplied per iteration by a `StepOracle`:
the stdin line read by `confirm`, the `Execute` outcome, and the
`Verify` outcome. -/

/-- `applier.Applier` (configuration captured by `NewApplier`; the
writer and clients are effects, not state). -/
structure Applier where
  dryRun : Bool
  continueOnError : Bool
  autoConfirm : Bool
  verbose : Bool
deriving DecidableEq, Inhabited

/-- The outcome of the `fmt.Scanln(&response)` call inside `confirm`:
the response read so far plus the error, if any. -/
structure ReadLine where
  response : String
  err : Option String
deriving DecidableEq, Inhabited

/-- `(*Applier).confirm`.  A scan error other than "unexpected newline"
is swallowed and treated as "no"; the returned error is always nil in
the source. -/
def confirm (r : ReadLine) : Bool × Option String :=
  match r.err with
  | some msg =>
    if msg ≠ "unexpected newline" then (false, none)
    else (decide (r.response = "y") || decide (r.response = "Y") ||
          decide (r.response = "yes") || decide (r.response = "YES"), none)
  | none =>
    (decide (r.response = "y") || decide (r.response = "Y") ||
     decide (r.response = "yes") || decide (r.response = "YES"), none)

/-- `types.ActionResult` (timestamps/durations and the opaque
before/after snapshots are not modelled). -/
structure ActionResult where
  action : Action
  success : Bool
  error : String
deriving DecidableEq, Inhabited

/-- `types.ApplyResult`. -/
structure ApplyResult where
  totalActions : Nat
  succeeded : Nat
  failed : Nat
  skipped : Nat
  actions : List ActionResult
  exitCode : Int
deriving DecidableEq, Inhabited

/-- Mock-executor instrumentation: how many times `Execute` and
`Verify` were invoked (the call counter the spec's dry-run property
talks about). -/
structure ExecCalls where
  executeCalls : Nat
  verifyCalls : Nat
deriving DecidableEq, Inhabited

/-- The mutable loop state of `(*Applier).Apply`. -/
structure ApplyState where
  succeeded : Nat
  failed : Nat
  skipped : Nat
  results : List ActionResult
  calls : ExecCalls
deriving DecidableEq, Inhabited

def initApplyState : ApplyState := ⟨0, 0, 0, [], ⟨0, 0⟩⟩

/-- The per-iteration effects of the run loop. -/
structure StepOracle where
  read : ReadLine
  execErr : Option String
  verify : Except String Bool
deriving Inhabited

/-- The dry-run/live block of one loop iteration (after the
confirmation gate).  Returns the new state and whether the loop breaks
(`true` only on an `Execute` error with `continueOnError` false). -/
def applyBody (a : Applier) (o : StepOracle) (action : Action) (st : ApplyState) : ApplyState × Bool :=
  if a.dryRun then
    ({ st with succeeded := st.succeeded + 1
               results := st.results ++ [{ action := action, success := true, error := "" }] }, false)
  else
    let st1 := { st with calls := { st.calls with executeCalls := st.calls.executeCalls + 1 } }
    match o.execErr with
    | some e =>
      ({ st1 with failed := st1.failed + 1
                  results := st1.results ++ [{ action := action, success := false, error := e }] },
       !a.continueOnError)
    | none =>
      let st2 := { st1 with calls := { st1.calls with verifyCalls := st1.calls.verifyCalls + 1 } }
      match o.verify with
      | Except.error ve =>
        ({ st2 with failed := st2.failed + 1
                    results := st2.results ++ [{ action := action, success := false, error := "verification failed: " ++ ve }] },
         false)
      | Except.ok false =>
        ({ st2 with failed := st2.failed + 1
                    results := st2.results ++ [{ action := action, success := false, error := "post-condition not met" }] },
         false)
      | Except.ok true =>
        ({ st2 with succeeded := st2.succeeded + 1
                    results := st2.results ++ [{ action := action, success := true, error := "" }] },
         false)

/-- One full iteration of the run loop: the confirmation gate followed
by `applyBody`. -/
def stepAction (a : Applier) (o : StepOracle) (action : Action) (st : ApplyState) : ApplyState × Bool :=
  if action.requiresForce && !a.dryRun && !a.autoConfirm then
    let c := confirm o.read
    match c.2 with
    | some e =>
      ({ st with failed := st.failed + 1
                 results := st.results ++ [{ action := action, success := false, error := "confirmation error: " ++ e }] },
       !a.continueOnError)
    | none =>
      if c.1 = false then
        ({ st with skipped := st.skipped + 1
                   results := st.results ++ [{ action := action, success := false, error := "skipped by user" }] },
         false)
      else applyBody a o action st
  else applyBody a o action st

/-- The `for i, action := range plan.Actions` loop. -/
def applyLoop (a : Applier) (env : Nat → StepOracle) : List Action → Nat → ApplyState → ApplyState
  | [], _, st => st
  | action :: rest, i, st =>
    let pr := stepAction a (env i) action st
    if pr.2 then pr.1 else applyLoop a env rest (i + 1) pr.1

/-- `(*Applier).calculateExitCode`. -/
def Applier.calculateExitCode (_a : Applier) (result : ApplyResult) : Int :=
  if result.failed = 0 ∧ result.skipped = 0 then 0
  else if result.succeeded = 0 then 1
  else 2

/-- `(*Applier).Apply` (nil plan = `none`); returns the `ApplyResult`
paired with the mock-executor call counts. -/
def Applier.Apply (a : Applier) (env : Nat → StepOracle) (plan : Option Plan) :
    Except String (ApplyResult × ExecCalls) :=
  match plan with
  | none => Except.error "plan cannot be nil"
  | some p =>
    let st := applyLoop a env p.actions 0 initApplyState
    let result : ApplyResult :=
      { totalActions := p.actions.length
        succeeded := st.succeeded
        failed := st.failed
        skipped := st.skipped
        actions := st.results
        exitCode := 0 }
    Except.ok ({ result with exitCode := a.calculateExitCode result }, st.calls)

/-! ### Shared helper lemmas -/

/-- `Planner.Plan` on a non-nil diagnosis always succeeds, with payload
`planOf`. -/
theorem Plan_some_eq (p : Planner) (d : DiagnosisReport) :
    Planner.Plan p (some d) = Except.ok (planOf p d) := by
  unfold planOf
  cases h : Planner.Plan p (some d) with
  | ok pl => rfl
  | error e =>
    exfalso
    unfold Planner.Plan at h
    split at h
    · simp_all
    · split at h <;> simp_all

/-- The error slot returned by `confirm` is nil on every input. -/
theorem confirm_err_none (r : ReadLine) : (confirm r).2 = none := by
  cases hr : r.err with
  | none => simp [confirm, hr]
  | some msg =>
    by_cases h : msg ≠ "unexpected newline" <;> simp [confirm, hr, h]

/-- `applyBody` never touches the skipped counter. -/
theorem applyBody_skipped (a : Applier) (o : StepOracle) (action : Action) (st : ApplyState) :
    (applyBody a o action st).1.skipped = st.skipped := by
  unfold applyBody
  split
  · rfl
  · cases o.execErr with
    | some e => rfl
    | none =>
      cases o.verify with
      | error ve => rfl
      | ok b => cases b <;> rfl

/-- Fixtures used by concrete evaluations below. -/
def applierPlain : Applier := { dryRun := false, continueOnError := false, autoConfirm := false, verbose := false }

def oracleOk : StepOracle := { read := { response := "", err := none }, execErr := none, verify := Except.ok true }

def envOk : Nat → StepOracle := fun _ => oracleOk

def emptyPlan : Plan :=
  { target := { kind := "Namespace", apiVersion := "v1", nspace := "", name := "test" }
    riskLevel := ""
    maxEscalation := 2
    actions := []
    commands := [] }

/-- The `.ok` payload of `Applier.Apply` on a non-nil plan (total
because only `none` produces an error). -/
def applyOf (a : Applier) (env : Nat → StepOracle) (p : Plan) : ApplyResult × ExecCalls :=
  match Applier.Apply a env (some p) with
  | Except.ok r => r
  | Except.error _ => default

theorem Apply_some_eq (a : Applier) (env : Nat → StepOracle) (p : Plan) :
    Applier.Apply a env (some p) = Except.ok (applyOf a env p) := rfl

/-! ### C10 — resolveGVR is total -/

/-- C10: `resolveGVR` returns a coordinate with a nil error for every
`ResourceRef` (empty kind and empty apiVersion included), so the
guards on a resolution failure are unreachable: `verifyDeleted`'s
dynamic branch always proceeds to the `Get`-based check (its
"already deleted" guard never fires), and `patchDynamicResource`
always proceeds to the patch call (its "failed to resolve GVR" error
is never produced). -/
theorem resolveGVR_total :
    (∀ target : ResourceRef, (resolveGVR target).2 = none) ∧
    (∀ (getRes : GroupVersionResource → String → String → Option String) (target : ResourceRef),
      verifyDeletedDynamic getRes target =
        (match getRes (resolveGVR target).1 target.nspace target.name with
         | some e => if strContains e "not found" then (true, none) else (false, some e)
         | none => (false, none))) ∧
    (∀ (patch : GroupVersionResource → String → String → Option String) (target : ResourceRef),
      patchDynamicResource patch target = patch (resolveGVR target).1 target.nspace target.name) :=
  ⟨fun _ => rfl, fun _ _ => rfl, fun _ _ => rfl⟩

/-! ### C4 — exit code law -/

/-- C4 counterexample: on the empty plan the loop records nothing, so
`succeeded = 0` while the computed exit code is `0`, refuting the
claim's unconditional "exit code is 1 iff succeeded = 0". -/
theorem exit_code_claim_cx :
    Applier.Apply applierPlain envOk (some emptyPlan) = Except.ok (applyOf applierPlain envOk emptyPlan) ∧
    (applyOf applierPlain envOk emptyPlan).1.succeeded = 0 ∧
    (applyOf applierPlain envOk emptyPlan).1.exitCode = 0 ∧
    ¬ ((applyOf applierPlain envOk emptyPlan).1.exitCode = 1 ↔
       (applyOf applierPlain envOk emptyPlan).1.succeeded = 0) :=
  ⟨rfl, rfl, rfl, by decide⟩

/-- C4 amended: exit code is `0` iff `failed = 0 ∧ skipped = 0`; among
the remaining results it is `1` iff `succeeded = 0` and `2` otherwise;
the claim's concrete case `{3,1,2,0} → 2` holds; and an empty plan
short-circuits to exit code `0` (even though its `succeeded` is 0). -/
theorem exit_code_amended :
    (∀ (a : Applier) (r : ApplyResult), a.calculateExitCode r = 0 ↔ r.failed = 0 ∧ r.skipped = 0) ∧
    (∀ (a : Applier) (r : ApplyResult), ¬ (r.failed = 0 ∧ r.skipped = 0) →
      (a.calculateExitCode r = 1 ↔ r.succeeded = 0)) ∧
    (∀ (a : Applier) (r : ApplyResult), ¬ (r.failed = 0 ∧ r.skipped = 0) → r.succeeded ≠ 0 →
      a.calculateExitCode r = 2) ∧
    (∀ a : Applier, a.calculateExitCode
      { totalActions := 3, succeeded := 1, failed := 2, skipped := 0, actions := [], exitCode := 0 } = 2) ∧
    (∀ (a : Applier) (env : Nat → StepOracle) (p : Plan) (res : ApplyResult × ExecCalls),
      p.actions = [] → Applier.Apply a env (some p) = Except.ok res → res.1.exitCode = 0) := by
  refine ⟨?_, ?_, ?_, ?_, ?_⟩
  · intro a r
    unfold Applier.calculateExitCode
    split
    · simp_all
    · split <;> simp_all
  · intro a r h
    unfold Applier.calculateExitCode
    split
    · exact absurd (by assumption) h
    · split <;> simp_all
  · intro a r h hs
    unfold Applier.calculateExitCode
    split <;> simp_all
  · intro a
    rfl
  · intro a env p res hempty happ
    obtain ⟨tgt, rl, me, acts, cmds⟩ := p
    simp only at hempty
    subst hempty
    rw [show Applier.Apply a env (some ⟨tgt, rl, me, [], cmds⟩) = Except.ok
        ({ totalActions := 0, succeeded := 0, failed := 0, skipped := 0, actions := [], exitCode := 0 },
         ⟨0, 0⟩) from rfl] at happ
    injection happ with h3
    rw [← h3]

/-- C4 witness for the amended theorem's conditional parts, at the
claim's own concrete case `{total 3, succeeded 1, failed 2,
skipped 0}` and at the all-failed case. -/
theorem exit_code_amended_witness :
    applierPlain.calculateExitCode
      { totalActions := 3, succeeded := 1, failed := 2, skipped := 0, actions := [], exitCode := 0 } = 2 ∧
    applierPlain.calculateExitCode
      { totalActions := 3, succeeded := 0, failed := 3, skipped := 0, actions := [], exitCode := 0 } = 1 :=
  ⟨exit_code_amended.2.2.1 applierPlain
      { totalActions := 3, succeeded := 1, failed := 2, skipped := 0, actions := [], exitCode := 0 }
      (by decide) (by decide),
   (exit_code_amended.2.1 applierPlain
      { totalActions := 3, succeeded := 0, failed := 3, skipped := 0, actions := [], exitCode := 0 }
      (by decide)).mpr (by decide)⟩

/-! ### C5 — confirmation decline is recorded as skipped -/

/-- The decline branch of the confirmation gate. -/
theorem stepAction_decline_eq (a : Applier) (o : StepOracle) (action : Action) (st : ApplyState)
    (hrf : action.requiresForce = true) (hdr : a.dryRun = false) (hac : a.autoConfirm = false)
    (hdecl : (confirm o.read).1 = false) :
    stepAction a o action st =
      ({ st with skipped := st.skipped + 1
                 results := st.results ++
                   [{ action := action, success := false, error := "skipped by user" }] },
       false) := by
  unfold stepAction
  rw [hrf, hdr, hac]
  simp only [Bool.not_false, Bool.and_self, if_true]
  rw [show (confirm o.read) = ((confirm o.read).1, (confirm o.read).2) from rfl,
      confirm_err_none o.read, hdecl]
  rfl

/-- When the gate is down or the confirmation is affirmative,
`stepAction` is exactly `applyBody`. -/
theorem stepAction_eq_body (a : Applier) (o : StepOracle) (action : Action) (st : ApplyState)
    (h : (action.requiresForce && !a.dryRun && !a.autoConfirm) = false ∨ (confirm o.read).1 = true) :
    stepAction a o action st = applyBody a o action st := by
  unfold stepAction
  by_cases hgate : (action.requiresForce && !a.dryRun && !a.autoConfirm) = true
  · rcases h with h | h
    · rw [h] at hgate
      exact absurd hgate (by simp)
    · rw [hgate]
      simp only [if_true]
      rw [show (confirm o.read) = ((confirm o.read).1, (confirm o.read).2) from rfl,
          confirm_err_none o.read, h]
      rfl
  · rw [Bool.not_eq_true] at hgate
    rw [hgate]
    simp

/-- C5: `confirm` never surfaces an error (a read error is swallowed
and treated as "no"), a force-gated action whose confirmation comes
back non-affirmative is recorded as skipped (not failed) and the loop
continues, and the decline branch is the only place the skipped
counter can change. -/
theorem confirm_decline_skips :
    (∀ r : ReadLine, (confirm r).2 = none) ∧
    (∀ (a : Applier) (o : StepOracle) (action : Action) (st : ApplyState),
      action.requiresForce = true → a.dryRun = false → a.autoConfirm = false →
      (confirm o.read).1 = false →
      stepAction a o action st =
        ({ st with skipped := st.skipped + 1
                   results := st.results ++
                     [{ action := action, success := false, error := "skipped by user" }] },
         false)) ∧
    (∀ (a : Applier) (o : StepOracle) (action : Action) (st : ApplyState),
      (stepAction a o action st).1.skipped ≠ st.skipped →
      action.requiresForce = true ∧ a.dryRun = false ∧ a.autoConfirm = false ∧
      (confirm o.read).1 = false ∧
      (stepAction a o action st).1.skipped = st.skipped + 1) := by
  refine ⟨confirm_err_none, stepAction_decline_eq, ?_⟩
  intro a o action st hne
  by_cases hgate : (action.requiresForce && !a.dryRun && !a.autoConfirm) = true
  · by_cases hc : (confirm o.read).1 = false
    · have hgate2 := hgate
      simp only [Bool.and_eq_true, Bool.not_eq_true'] at hgate2
      rw [stepAction_decline_eq a o action st hgate2.1.1 hgate2.1.2 hgate2.2 hc]
      exact ⟨hgate2.1.1, hgate2.1.2, hgate2.2, hc, rfl⟩
    · rw [Bool.not_eq_false] at hc
      rw [stepAction_eq_body a o action st (Or.inr hc)] at hne
      exact absurd (applyBody_skipped a o action st) hne
  · rw [Bool.not_eq_true] at hgate
    rw [stepAction_eq_body a o action st (Or.inl hgate)] at hne
    exact absurd (applyBody_skipped a o action st) hne

/-- A force-gated fixture action for the C5 witness. -/
def forceActionW : Action :=
  { id := "action-001"
    type := ActionFinalize
    escalationLevel := EscalationForce
    description := "Force-finalize namespace stuck-ns"
    target := { kind := "Namespace", apiVersion := "v1", nspace := "", name := "stuck-ns" }
    operation := "force-finalize"
    command := ""
    risk := RiskCritical
    requiresForce := true
    expectedResult := "" }

/-- A confirmation read that errors out (modelling a failed stdin
read), which `confirm` converts into a decline. -/
def declineOracle : StepOracle :=
  { read := { response := "", err := some "EOF" }, execErr := none, verify := Except.ok true }

/-- C5 witness: a force action whose confirmation read fails with
`EOF` is recorded as skipped and the loop does not stop. -/
theorem confirm_decline_skips_witness :
    stepAction applierPlain declineOracle forceActionW initApplyState =
      ({ initApplyState with
           skipped := initApplyState.skipped + 1
           results := initApplyState.results ++
             [{ action := forceActionW, success := false, error := "skipped by user" }] },
       false) :=
  confirm_decline_skips.2.1 applierPlain declineOracle forceActionW initApplyState rfl rfl rfl (by decide)

/-! ### C6 — dry-run purity -/

/-- In dry-run mode every iteration unconditionally succeeds and calls
no executor operation. -/
theorem applyLoop_dryRun (a : Applier) (env : Nat → StepOracle) (hdr : a.dryRun = true) :
    ∀ (actions : List Action) (i : Nat) (st : ApplyState),
      applyLoop a env actions i st =
        { st with succeeded := st.succeeded + actions.length
                  results := st.results ++
                    actions.map (fun act => { action := act, success := true, error := "" }) } := by
  intro actions
  induction actions with
  | nil => intro i st; simp [applyLoop]
  | cons act rest ih =>
    intro i st
    have hstep : stepAction a (env i) act st =
        ({ st with succeeded := st.succeeded + 1
                   results := st.results ++ [{ action := act, success := true, error := "" }] },
         false) := by
      unfold stepAction
      rw [hdr]
      simp only [Bool.not_true, Bool.and_false, Bool.false_and, Bool.and_self, if_false]
      unfold applyBody
      rw [hdr]
      simp
    unfold applyLoop
    rw [hstep]
    simp only [if_neg (by simp : ¬ (false = true))]
    rw [ih (i + 1) _]
    simp [Nat.add_assoc, Nat.add_comm 1 rest.length]

/-- C6: under dry-run, every action is recorded as succeeded
(`succeeded = totalActions`, `failed = 0`, `skipped = 0`) and the
executor's `Execute` and `Verify` are never invoked (their call
counters stay at zero). -/
theorem dry_run_purity (a : Applier) (env : Nat → StepOracle) (plan : Plan)
    (res : ApplyResult × ExecCalls)
    (hdr : a.dryRun = true)
    (happ : Applier.Apply a env (some plan) = Except.ok res) :
    res.1.succeeded = res.1.totalActions ∧ res.1.totalActions = plan.actions.length ∧
    res.1.failed = 0 ∧ res.1.skipped = 0 ∧
    res.2.executeCalls = 0 ∧ res.2.verifyCalls = 0 := by
  have h2 : Applier.Apply a env (some plan) =
      Except.ok
        (let st := applyLoop a env plan.actions 0 initApplyState
         let result : ApplyResult :=
           { totalActions := plan.actions.length
             succeeded := st.succeeded
             failed := st.failed
             skipped := st.skipped
             actions := st.results
             exitCode := 0 }
         ({ result with exitCode := a.calculateExitCode result }, st.calls)) := rfl
  rw [h2] at happ
  injection happ with h3
  rw [← h3]
  rw [applyLoop_dryRun a env hdr plan.actions 0 initApplyState]
  simp [initApplyState]

/-- A two-action fixture plan for the C6 witness. -/
def dryPlanW : Plan :=
  { target := { kind := "Namespace", apiVersion := "v1", nspace := "", name := "test" }
    riskLevel := "medium"
    maxEscalation := 2
    actions :=
      [{ id := "action-001", type := ActionInspect, escalationLevel := EscalationInfo,
         description := "Inspect namespace", target := { kind := "Namespace", apiVersion := "v1", nspace := "", name := "test" },
         operation := "inspect", command := "", risk := RiskNone, requiresForce := false, expectedResult := "" },
       { id := "action-002", type := ActionFinalize, escalationLevel := EscalationForce,
         description := "Force-finalize namespace test", target := { kind := "Namespace", apiVersion := "v1", nspace := "", name := "test" },
         operation := "force-finalize", command := "", risk := RiskCritical, requiresForce := true, expectedResult := "" }]
    commands := [] }

def applierDry : Applier := { dryRun := true, continueOnError := false, autoConfirm := false, verbose := false }

/-- C6 witness: a concrete dry-run over a two-action plan (one action
force-gated) succeeds on both actions with zero executor calls. -/
theorem dry_run_purity_witness :
    (applyOf applierDry envOk dryPlanW).1.succeeded = (applyOf applierDry envOk dryPlanW).1.totalActions ∧
    (applyOf applierDry envOk dryPlanW).1.totalActions = dryPlanW.actions.length ∧
    (applyOf applierDry envOk dryPlanW).1.failed = 0 ∧
    (applyOf applierDry envOk dryPlanW).1.skipped = 0 ∧
    (applyOf applierDry envOk dryPlanW).2.executeCalls = 0 ∧
    (applyOf applierDry envOk dryPlanW).2.verifyCalls = 0 :=
  dry_run_purity applierDry envOk dryPlanW (applyOf applierDry envOk dryPlanW) rfl
    (Apply_some_eq applierDry envOk dryPlanW)

/-! ### C9 — verification failures never stop the loop -/

/-- `applyBody` can only signal a break on an `Execute` error with
`continueOnError` false. -/
theorem applyBody_stop_inv (a : Applier) (o : StepOracle) (action : Action) (st : ApplyState)
    (hstop : (applyBody a o action st).2 = true) :
    a.continueOnError = false ∧ a.dryRun = false ∧ o.execErr ≠ none := by
  unfold applyBody at hstop
  by_cases hdr : a.dryRun = true
  · rw [hdr] at hstop
    simp at hstop
  · rw [Bool.not_eq_true] at hdr
    rw [hdr] at hstop
    simp only [Bool.false_eq_true, if_false] at hstop
    cases hexec : o.execErr with
    | some e =>
      rw [hexec] at hstop
      simp only [Bool.not_eq_eq_eq_not, Bool.not_true] at hstop
      exact ⟨by simpa using hstop, hdr, by simp [hexec]⟩
    | none =>
      rw [hexec] at hstop
      cases hv : o.verify with
      | error ve => rw [hv] at hstop; simp at hstop
      | ok b => rw [hv] at hstop; cases b <;> simp at hstop

/-- An oracle whose `Execute` succeeds but whose `Verify` reports the
post-condition unmet. -/
def verifyFalseOracle : StepOracle :=
  { read := { response := "", err := none }, execErr := none, verify := Except.ok false }

/-- A non-force fixture action for the C9 witness. -/
def plainActionW : Action :=
  { id := "action-001"
    type := ActionPatch
    escalationLevel := EscalationFinalizer
    description := "Remove finalizers from Pod/default/p"
    target := { kind := "Pod", apiVersion := "v1", nspace := "default", name := "p" }
    operation := "remove-finalizers"
    command := ""
    risk := RiskMedium
    requiresForce := false
    expectedResult := "" }

/-- C9: on the live path, once an action reaches execution and
`Execute` succeeds, a verification error or a false verification
result is recorded as failed but never breaks the loop (even with
`continueOnError = false`); conversely the loop can only break on an
`Execute` error under `continueOnError = false`. -/
theorem verify_failure_never_stops :
    (∀ (a : Applier) (o : StepOracle) (action : Action) (st : ApplyState),
      a.dryRun = false → o.execErr = none → o.verify ≠ Except.ok true →
      (action.requiresForce = false ∨ a.autoConfirm = true ∨ (confirm o.read).1 = true) →
      (stepAction a o action st).2 = false ∧
      (stepAction a o action st).1.failed = st.failed + 1 ∧
      (stepAction a o action st).1.succeeded = st.succeeded) ∧
    (∀ (a : Applier) (o : StepOracle) (action : Action) (st : ApplyState),
      (stepAction a o action st).2 = true →
      a.continueOnError = false ∧ a.dryRun = false ∧ o.execErr ≠ none) := by
  constructor
  · intro a o action st hdr hexec hver hreach
    have hbody : stepAction a o action st = applyBody a o action st := by
      rcases hreach with h | h | h
      · exact stepAction_eq_body a o action st (Or.inl (by rw [h]; rfl))
      · exact stepAction_eq_body a o action st (Or.inl (by rw [h]; simp))
      · exact stepAction_eq_body a o action st (Or.inr h)
    rw [hbody]
    unfold applyBody
    rw [hdr]
    simp only [Bool.false_eq_true, if_false]
    rw [hexec]
    cases hv : o.verify with
    | error ve => simp
    | ok b =>
      cases b with
      | false => simp
      | true => exact absurd hv hver
  · intro a o action st hstop
    by_cases hgate : (action.requiresForce && !a.dryRun && !a.autoConfirm) = true
    · by_cases hc : (confirm o.read).1 = false
      · have hgate2 := hgate
        simp only [Bool.and_eq_true, Bool.not_eq_true'] at hgate2
        rw [stepAction_decline_eq a o action st hgate2.1.1 hgate2.1.2 hgate2.2 hc] at hstop
        simp at hstop
      · rw [Bool.not_eq_false] at hc
        rw [stepAction_eq_body a o action st (Or.inr hc)] at hstop
        exact applyBody_stop_inv a o action st hstop
    · rw [Bool.not_eq_true] at hgate
      rw [stepAction_eq_body a o action st (Or.inl hgate)] at hstop
      exact applyBody_stop_inv a o action st hstop

/-- C9 witness: with `continueOnError = false`, a successful `Execute`
followed by a `Verify` returning `false` records a failure yet does
not break the loop. -/
theorem verify_failure_never_stops_witness :
    (stepAction applierPlain verifyFalseOracle plainActionW initApplyState).2 = false ∧
    (stepAction applierPlain verifyFalseOracle plainActionW initApplyState).1.failed =
      initApplyState.failed + 1 ∧
    (stepAction applierPlain verifyFalseOracle plainActionW initApplyState).1.succeeded =
      initApplyState.succeeded :=
  verify_failure_never_stops.1 applierPlain verifyFalseOracle plainActionW initApplyState rfl rfl
    (by simp [verifyFalseOracle]) (Or.inl rfl)

/-! ### Planner helper lemmas -/

theorem mem_orderByDependencies {a : Action} {l : List Action} :
    a ∈ OrderByDependencies l ↔ a ∈ l := by
  unfold OrderByDependencies
  split
  · exact Iff.rfl
  · exact List.mem_insertionSort actionLe

theorem assignIDs_map_esc (i : Nat) (l : List Action) :
    (assignIDs i l).map (fun a => a.escalationLevel) = l.map (fun a => a.escalationLevel) := by
  induction l generalizing i with
  | nil => rfl
  | cons a rest ih => simp [assignIDs, ih]

/-- Every accumulated action sits at one of the five levels, each
emitted only under its own gate. -/
theorem planActions_levels {p : Planner} {d : DiagnosisReport} {b : Action}
    (hb : b ∈ planActions p d) :
    b.escalationLevel = EscalationInfo ∨
    (b.escalationLevel = EscalationClean ∧ EscalationClean ≤ p.maxEscalation) ∨
    (b.escalationLevel = EscalationFinalizer ∧ EscalationFinalizer ≤ p.maxEscalation) ∨
    (b.escalationLevel = EscalationCRD ∧ EscalationCRD ≤ p.maxEscalation ∧ p.allowForce = true) ∨
    (b.escalationLevel = EscalationForce ∧ EscalationForce ≤ p.maxEscalation ∧ p.allowForce = true) := by
  unfold planActions at hb
  simp only [List.mem_append] at hb
  rcases hb with ((((hb | hb) | hb) | hb) | hb)
  · left
    unfold infoActions at hb
    simp only [List.mem_append, List.mem_singleton] at hb
    rcases hb with hb | hb
    · rw [hb]
    · split at hb
      · simp only [List.mem_singleton] at hb
        rw [hb]
      · simp at hb
  · right; left
    split at hb
    · split at hb
      · unfold cleanPathActions at hb
        simp only [List.mem_singleton] at hb
        rw [hb]
        exact ⟨rfl, by assumption⟩
      · simp at hb
    · simp at hb
  · right; right; left
    split at hb
    · simp only [List.mem_map] at hb
      rcases hb with ⟨blocker, _, hb⟩
      rw [← hb]
      exact ⟨rfl, by assumption⟩
    · simp at hb
  · right; right; right; left
    split at hb
    · split at hb
      · simp only [List.mem_singleton] at hb
        rw [hb]
        have hcond : EscalationCRD ≤ p.maxEscalation ∧ p.allowForce = true := by assumption
        exact ⟨rfl, hcond.1, hcond.2⟩
      · simp at hb
    · simp at hb
  · right; right; right; right
    split at hb
    · split at hb
      · simp only [List.mem_singleton] at hb
        rw [hb]
        have hcond : EscalationForce ≤ p.maxEscalation ∧ p.allowForce = true := by assumption
        exact ⟨rfl, hcond.1, hcond.2⟩
      · simp at hb
    · simp at hb

/-- The healthy early return of `Planner.Plan`, evaluated. -/
theorem Plan_healthy_eq (p : Planner) (d : DiagnosisReport) (hh : d.IsHealthy = true) :
    Planner.Plan p (some d) = Except.ok
      { target := d.target
        riskLevel := ""
        maxEscalation := p.maxEscalation
        actions := []
        commands := [] } := by
  simp only [Planner.Plan]
  rw [if_pos hh]

/-- The non-healthy branch of `Planner.Plan`, evaluated. -/
theorem Plan_unhealthy_eq (p : Planner) (d : DiagnosisReport) (hh : d.IsHealthy = false) :
    Planner.Plan p (some d) = Except.ok
      { target := d.target
        riskLevel := CalculateRiskLevel (assignIDs 1 (OrderByDependencies (planActions p d)))
        maxEscalation := p.maxEscalation
        actions := assignIDs 1 (OrderByDependencies (planActions p d))
        commands := GenerateCommands (assignIDs 1 (OrderByDependencies (planActions p d))) } := by
  simp only [Planner.Plan]
  rw [if_neg (by simp [hh])]

/-- Every action of an emitted plan shares its escalation level with
some accumulated pre-ordering action. -/
theorem plan_actions_esc {p : Planner} {d : DiagnosisReport} {plan : Plan}
    (h : Planner.Plan p (some d) = Except.ok plan)
    {a : Action} (ha : a ∈ plan.actions) :
    ∃ b ∈ planActions p d, b.escalationLevel = a.escalationLevel := by
  by_cases hh : d.IsHealthy = true
  · rw [Plan_healthy_eq p d hh] at h
    injection h with h2
    rw [← h2] at ha
    simp at ha
  · rw [Bool.not_eq_true] at hh
    rw [Plan_unhealthy_eq p d hh] at h
    injection h with h2
    rw [← h2] at ha
    simp only at ha
    have h1 : a.escalationLevel ∈
        (assignIDs 1 (OrderByDependencies (planActions p d))).map (fun x => x.escalationLevel) :=
      List.mem_map_of_mem _ ha
    rw [assignIDs_map_esc] at h1
    rcases List.mem_map.mp h1 with ⟨b, hbmem, hbesc⟩
    exact ⟨b, mem_orderByDependencies.mp hbmem, hbesc⟩

/-! ### C1 — force gating -/

/-- C1: with `allowForce = false` the plan contains no action at level
`EscalationCRD (3)` or above, for every diagnosis and every
`maxEscalation`. -/
theorem planner_force_gating (p : Planner) (d : DiagnosisReport) (plan : Plan)
    (hforce : p.allowForce = false)
    (hplan : Planner.Plan p (some d) = Except.ok plan) :
    ∀ a ∈ plan.actions, ¬ (EscalationCRD ≤ a.escalationLevel) := by
  intro a ha
  rcases plan_actions_esc hplan ha with ⟨b, hbmem, hbesc⟩
  rcases planActions_levels hbmem with h | ⟨h, _⟩ | ⟨h, _⟩ | ⟨_, _, hf⟩ | ⟨_, _, hf⟩
  · rw [← hbesc, h]
    unfold EscalationCRD EscalationInfo
    omega
  · rw [← hbesc, h]
    unfold EscalationCRD EscalationClean
    omega
  · rw [← hbesc, h]
    unfold EscalationCRD EscalationFinalizer
    omega
  · rw [hforce] at hf
    exact absurd hf (by simp)
  · rw [hforce] at hf
    exact absurd hf (by simp)

/-- A terminating namespace diagnosis with a blocker, a discovery
failure and an available controller (so every level has something to
emit). -/
def stuckReportW : DiagnosisReport :=
  { target := { kind := "Namespace", apiVersion := "v1", nspace := "", name := "cert-manager" }
    targetType := TargetTypeNamespace
    status := "Terminating"
    deletionTimestamp := none
    rootCause := "blocked by finalizers"
    finalizers := ["kubernetes"]
    blockers :=
      [{ ref := { kind := "Certificate", apiVersion := "cert-manager.io/v1", nspace := "", name := "my-cert" }
         finalizers := ["cert-manager.io/finalizer"]
         deletionTimestamp := some 1 }]
    discoveryFailures := [{ groupVersion := "cert-manager.io/v1", resource := "", error := "the server could not find the requested resource" }]
    controllers := [{ name := "cert-manager", nspace := "cert-manager", available := true, ready := true, message := "" }]
    instanceCount := 0 }

def plannerNoForce : Planner := { maxEscalation := 4, allowForce := false }

def plannerL2 : Planner := { maxEscalation := 2, allowForce := false }

/-- C1 witness: `maxEscalation = 4` with `allowForce = false` on a
terminating namespace diagnosis with a blocker and a discovery
failure: no emitted action reaches level 3. -/
theorem planner_force_gating_witness :
    Planner.Plan plannerNoForce (some stuckReportW) = Except.ok (planOf plannerNoForce stuckReportW) ∧
    ∀ a ∈ (planOf plannerNoForce stuckReportW).actions, ¬ (EscalationCRD ≤ a.escalationLevel) :=
  ⟨Plan_some_eq plannerNoForce stuckReportW,
   planner_force_gating plannerNoForce stuckReportW (planOf plannerNoForce stuckReportW) rfl
     (Plan_some_eq plannerNoForce stuckReportW)⟩

/-! ### C3 — level monotonicity -/

/-- C3: for every diagnosis and every configured ceiling `L` in the
`EscalationLevel` enum's domain (`Info ≤ L`, i.e. `0 ≤ L`; the CLI
boundary rejects anything outside `[0,4]` before the planner runs),
every action of the plan has `escalationLevel ≤ L`.  The lower bound
is needed because level-0 informational actions are emitted
unconditionally. -/
theorem planner_level_monotonic (p : Planner) (d : DiagnosisReport) (plan : Plan)
    (hlo : EscalationInfo ≤ p.maxEscalation)
    (hplan : Planner.Plan p (some d) = Except.ok plan) :
    ∀ a ∈ plan.actions, a.escalationLevel ≤ p.maxEscalation := by
  intro a ha
  rcases plan_actions_esc hplan ha with ⟨b, hbmem, hbesc⟩
  rcases planActions_levels hbmem with h | ⟨h, hle⟩ | ⟨h, hle⟩ | ⟨h, hle, _⟩ | ⟨h, hle, _⟩ <;>
    rw [← hbesc, h]
  · exact hlo
  · exact hle
  · exact hle
  · exact hle
  · exact hle

/-- C3 witness: ceiling 2 on a terminating namespace diagnosis with a
blocker and an available controller: all four emitted actions stay at
level ≤ 2. -/
theorem planner_level_monotonic_witness :
    Planner.Plan plannerL2 (some stuckReportW) = Except.ok (planOf plannerL2 stuckReportW) ∧
    ∀ a ∈ (planOf plannerL2 stuckReportW).actions, a.escalationLevel ≤ plannerL2.maxEscalation :=
  ⟨Plan_some_eq plannerL2 stuckReportW,
   planner_level_monotonic plannerL2 stuckReportW (planOf plannerL2 stuckReportW) (by decide)
     (Plan_some_eq plannerL2 stuckReportW)⟩

/-! ### C2 — healthy short-circuit -/

/-- A healthy diagnosis fixture (`status = "Active"`). -/
def healthyReportW : DiagnosisReport :=
  { target := { kind := "Namespace", apiVersion := "v1", nspace := "", name := "default" }
    targetType := TargetTypeNamespace
    status := "Active"
    deletionTimestamp := none
    rootCause := ""
    finalizers := []
    blockers := []
    discoveryFailures := []
    controllers := []
    instanceCount := 0 }

/-- C2 counterexample: on a healthy diagnosis the plan's actions and
commands are empty, but its `riskLevel` is the `RiskLevel` zero value
`""`, not the `RiskNone` constant `"none"` the claim asserts (the
healthy early return hands back the freshly initialised plan without
ever setting `RiskLevel`). -/
theorem healthy_riskLevel_cx :
    Planner.Plan plannerL2 (some healthyReportW) = Except.ok (planOf plannerL2 healthyReportW) ∧
    (planOf plannerL2 healthyReportW).actions = [] ∧
    (planOf plannerL2 healthyReportW).commands = [] ∧
    (planOf plannerL2 healthyReportW).riskLevel = "" ∧
    ¬ (planOf plannerL2 healthyReportW).riskLevel = RiskNone :=
  ⟨Plan_some_eq plannerL2 healthyReportW, rfl, rfl, rfl, by decide⟩

/-- C2 amended: for every healthy diagnosis (`status` one of
`"Active"`, `"Bound"`, `""`) the plan has empty actions and commands,
and its `riskLevel` is the zero value `""` — which `compareRisk` ranks
identically to `RiskNone` (rank 0) but which is a different string —
with no escalation level evaluated. -/
theorem healthy_short_circuit (p : Planner) (d : DiagnosisReport) (plan : Plan)
    (hh : d.IsHealthy = true)
    (hplan : Planner.Plan p (some d) = Except.ok plan) :
    plan.actions = [] ∧ plan.commands = [] ∧ plan.riskLevel = "" ∧
    riskRank plan.riskLevel = riskRank RiskNone := by
  rw [Plan_healthy_eq p d hh] at hplan
  injection hplan with h2
  rw [← h2]
  exact ⟨rfl, rfl, rfl, (by decide : riskRank "" = riskRank RiskNone)⟩

/-- C2 witness: the amended statement evaluated on the concrete
healthy diagnosis. -/
theorem healthy_short_circuit_witness :
    (planOf plannerNoForce healthyReportW).actions = [] ∧
    (planOf plannerNoForce healthyReportW).commands = [] ∧
    (planOf plannerNoForce healthyReportW).riskLevel = "" ∧
    riskRank (planOf plannerNoForce healthyReportW).riskLevel = riskRank RiskNone :=
  healthy_short_circuit plannerNoForce healthyReportW (planOf plannerNoForce healthyReportW)
    (by decide) (Plan_some_eq plannerNoForce healthyReportW)

/-! ### C7 — resourcePriority table -/

/-- C7 counterexample: the kind `endpoint` (singular) is in none of the
claim's lists, so the claim requires priority 50 for it, but the code's
first switch case also names `"endpoint"` and returns 10. -/
theorem resourcePriority_endpoint_cx :
    resourcePriority "endpoint" = 10 ∧
    resourcePriority "Endpoint" = 10 ∧
    ¬ resourcePriority "endpoint" = 50 ∧
    "endpoint" ∉ (["pod", "configmap", "secret", "service", "endpoints"] : List String) ∧
    "endpoint" ∉ (["deployment", "statefulset", "daemonset", "replicaset", "job", "cronjob"] : List String) ∧
    "endpoint" ∉ (["certificate", "issuer", "clusterissuer"] : List String) ∧
    "endpoint" ≠ "customresourcedefinition" ∧
    "endpoint" ≠ "namespace" := by
  refine ⟨rfl, rfl, by decide, by decide, by decide, by decide, by decide, by decide⟩

/-- C7 amended: the claim's table is correct once `endpoint` (singular)
is added to the priority-10 list: case-insensitively, the 10/20/30/100/
200 buckets are as listed and every other kind maps to 50. -/
theorem resourcePriority_table :
    (∀ kind : String,
      resourcePriority kind =
        (if strToLower kind ∈ (["pod", "configmap", "secret", "service", "endpoint", "endpoints"] : List String) then 10
         else if strToLower kind ∈ (["deployment", "statefulset", "daemonset", "replicaset", "job", "cronjob"] : List String) then 20
         else if strToLower kind ∈ (["certificate", "issuer", "clusterissuer"] : List String) then 30
         else if strToLower kind = "customresourcedefinition" then 100
         else if strToLower kind = "namespace" then 200
         else 50)) ∧
    resourcePriority "Pod" = 10 ∧ resourcePriority "ConfigMap" = 10 ∧
    resourcePriority "Secret" = 10 ∧ resourcePriority "Service" = 10 ∧
    resourcePriority "Endpoints" = 10 ∧
    resourcePriority "Deployment" = 20 ∧ resourcePriority "StatefulSet" = 20 ∧
    resourcePriority "DaemonSet" = 20 ∧ resourcePriority "ReplicaSet" = 20 ∧
    resourcePriority "Job" = 20 ∧ resourcePriority "CronJob" = 20 ∧
    resourcePriority "Certificate" = 30 ∧ resourcePriority "Issuer" = 30 ∧
    resourcePriority "ClusterIssuer" = 30 ∧
    resourcePriority "CustomResourceDefinition" = 100 ∧
    resourcePriority "Namespace" = 200 ∧
    resourcePriority "UnknownResource" = 50 ∧ resourcePriority "" = 50 := by
  refine ⟨?_, rfl, rfl, rfl, rfl, rfl, rfl, rfl, rfl, rfl, rfl, rfl, rfl, rfl, rfl, rfl, rfl, rfl, rfl⟩
  intro kind
  unfold resourcePriority
  simp only [List.mem_cons, List.not_mem_nil, or_false]

/-! ### C8 — order-theoretic facts about the string comparison -/

theorem charEqOfToNatEq {a b : Char} (h : a.toNat = b.toNat) : a = b :=
  Char.ext (UInt32.ext h)

theorem charsLt_asymm : ∀ (a b : List Char), charsLt a b = true → charsLt b a = false := by
  intro a
  induction a with
  | nil =>
    intro b hab
    cases b with
    | nil => simp [charsLt] at hab
    | cons bh bt => simp [charsLt]
  | cons ah as2 ih =>
    intro b hab
    cases b with
    | nil => simp [charsLt] at hab
    | cons bh bt =>
      by_cases h1 : ah.toNat < bh.toNat
      · have h2 : ¬ bh.toNat < ah.toNat := by omega
        simp [charsLt, h1, h2]
      · by_cases h3 : bh.toNat < ah.toNat
        · simp [charsLt, h1, h3] at hab
        · simp only [charsLt, if_neg h1, if_neg h3] at hab
          simp only [charsLt, if_neg h1, if_neg h3]
          exact ih bt hab

theorem charsLt_connex : ∀ (a b : List Char), charsLt a b = false → charsLt b a = false → a = b := by
  intro a
  induction a with
  | nil =>
    intro b h1 _
    cases b with
    | nil => rfl
    | cons bh bt => simp [charsLt] at h1
  | cons ah as2 ih =>
    intro b h1 h2
    cases b with
    | nil => simp [charsLt] at h2
    | cons bh bt =>
      by_cases hl : ah.toNat < bh.toNat
      · simp [charsLt, hl] at h1
      · by_cases hg : bh.toNat < ah.toNat
        · simp [charsLt, hg] at h2
        · have hchar : ah = bh := charEqOfToNatEq (by omega)
          simp only [charsLt, if_neg hl, if_neg hg] at h1
          simp only [charsLt, if_neg hg, if_neg hl] at h2
          rw [hchar, ih bt h1 h2]

theorem charsLt_trans : ∀ (a b c : List Char),
    charsLt a b = true → charsLt b c = true → charsLt a c = true := by
  intro a
  induction a with
  | nil =>
    intro b c hab hbc
    cases b with
    | nil => simp [charsLt] at hab
    | cons bh bt =>
      cases c with
      | nil => simp [charsLt] at hbc
      | cons ch ct => rfl
  | cons ah as2 ih =>
    intro b c hab hbc
    cases b with
    | nil => simp [charsLt] at hab
    | cons bh bt =>
      cases c with
      | nil => simp [charsLt] at hbc
      | cons ch ct =>
        by_cases h1 : ah.toNat < bh.toNat
        · by_cases h2 : bh.toNat < ch.toNat
          · simp [charsLt, show ah.toNat < ch.toNat by omega]
          · by_cases h4 : ch.toNat < bh.toNat
            · simp [charsLt, if_neg h2, h4] at hbc
            · simp [charsLt, show ah.toNat < ch.toNat by omega]
        · by_cases h5 : bh.toNat < ah.toNat
          · simp [charsLt, if_neg h1, h5] at hab
          · simp only [charsLt, if_neg h1, if_neg h5] at hab
            by_cases h2 : bh.toNat < ch.toNat
            · simp [charsLt, show ah.toNat < ch.toNat by omega]
            · by_cases h4 : ch.toNat < bh.toNat
              · simp [charsLt, if_neg h2, h4] at hbc
              · simp only [charsLt, if_neg h2, if_neg h4] at hbc
                have h6 : ¬ ah.toNat < ch.toNat := by omega
                have h7 : ¬ ch.toNat < ah.toNat := by omega
                simp only [charsLt, if_neg h6, if_neg h7]
                exact ih bt ct hab hbc

instance : IsTotal String strLe :=
  ⟨fun a b => by
    unfold strLe strLt
    by_cases h : charsLt b.data a.data = true
    · right
      exact charsLt_asymm b.data a.data h
    · left
      rwa [Bool.not_eq_true] at h⟩

instance : IsTrans String strLe :=
  ⟨fun a b c hab hbc => by
    unfold strLe strLt at hab hbc ⊢
    by_cases h : charsLt c.data a.data = true
    · exfalso
      by_cases h3 : charsLt b.data c.data = true
      · have h4 := charsLt_trans b.data c.data a.data h3 h
        rw [h4] at hab
        exact Bool.noConfusion hab
      · rw [Bool.not_eq_true] at h3
        have heq : b.data = c.data := charsLt_connex b.data c.data h3 hbc
        rw [← heq] at h
        rw [h] at hab
        exact Bool.noConfusion hab
    · rwa [Bool.not_eq_true] at h⟩

/-! ### C8 — association-list lemmas -/

theorem alookup_eq_none {α : Type} : ∀ (m : List (String × α)) (k : String),
    k ∉ m.map Prod.fst → alookup m k = none := by
  intro m
  induction m with
  | nil => intro k _; rfl
  | cons kv rest ih =>
    intro k hk
    simp only [List.map_cons, List.mem_cons] at hk
    push_neg at hk
    unfold alookup
    rw [if_neg (fun h => hk.1 h.symm)]
    exact ih k hk.2

theorem alookup_aset_ne {α : Type} : ∀ (m : List (String × α)) (k k2 : String) (v : α),
    k ≠ k2 → alookup (aset m k v) k2 = alookup m k2 := by
  intro m
  induction m with
  | nil =>
    intro k k2 v hne
    unfold aset alookup
    rw [if_neg hne]
    rfl
  | cons kv rest ih =>
    intro k k2 v hne
    cases kv with
    | mk k1 v1 =>
      unfold aset
      by_cases h : k1 = k
      · rw [if_pos h]
        unfold alookup
        by_cases h2 : k1 = k2
        · exact absurd (h.symm.trans h2) hne
        · rw [if_neg h2, if_neg h2]
      · rw [if_neg h]
        unfold alookup
        by_cases h2 : k1 = k2
        · rw [if_pos h2, if_pos h2]
        · rw [if_neg h2, if_neg h2]
          exact ih k k2 v hne

/-! ### C8 — pipeline lemmas for the disjoint family -/

theorem initDegrees_disjoint : ∀ (l : List Action) (m : List (String × Int)),
    (l.map (fun a => resourceKey a.target)).Nodup →
    (∀ a ∈ l, resourceKey a.target ∉ m.map Prod.fst) →
    initDegrees l m = m ++ l.map (fun a => (resourceKey a.target, 0)) := by
  intro l
  induction l with
  | nil => intro m _ _; simp [initDegrees]
  | cons a rest ih =>
    intro m hnodup hdisj
    unfold initDegrees
    simp only [alookup_eq_none m (resourceKey a.target) (hdisj a (List.mem_cons_self a rest))]
    simp only [List.map_cons, List.nodup_cons] at hnodup
    rw [ih (m ++ [(resourceKey a.target, 0)]) hnodup.2 ?_]
    · simp
    · intro b hb
      simp only [List.map_append, List.mem_append, List.map_cons, List.map_nil, List.mem_singleton]
      push_neg
      constructor
      · exact hdisj b (List.mem_cons_of_mem a hb)
      · intro hcontra
        exact hnodup.1 (hcontra ▸ List.mem_map_of_mem (fun x => resourceKey x.target) hb)

theorem addEdgesEntry_unchanged : ∀ (owners : List String) (key : String)
    (deg : List (String × Int)) (deps : List (String × List String)),
    (∀ o ∈ owners, alookup deg o = none) →
    addEdgesEntry key owners (deg, deps) = (deg, deps) := by
  intro owners
  induction owners with
  | nil => intro key deg deps _; rfl
  | cons o rest ih =>
    intro key deg deps hnone
    unfold addEdgesEntry
    rw [List.foldl_cons]
    have h1 : alookup deg o = none := hnone o (List.mem_cons_self o rest)
    simp only [h1]
    exact ih key deg deps (fun o2 ho2 => hnone o2 (List.mem_cons_of_mem o ho2))

theorem buildEdges_unchanged : ∀ (ownerRefs : List (String × List String))
    (deg0 : List (String × Int)),
    (∀ e ∈ ownerRefs, ∀ o ∈ e.2, alookup deg0 o = none) →
    buildEdges ownerRefs deg0 = (deg0, []) := by
  intro ownerRefs
  induction ownerRefs with
  | nil => intro deg0 _; rfl
  | cons e rest ih =>
    intro deg0 hnone
    unfold buildEdges
    rw [List.foldl_cons]
    rw [addEdgesEntry_unchanged e.2 e.1 deg0 [] (hnone e (List.mem_cons_self e rest))]
    show buildEdges rest deg0 = (deg0, [])
    exact ih deg0 (fun e2 he2 => hnone e2 (List.mem_cons_of_mem e he2))

theorem zeroKeys_all_zero_aux : ∀ (ks : List String) (q : List String),
    (ks.map (fun k => (k, (0 : Int)))).foldl
      (fun q kv => if kv.2 = 0 then q ++ [kv.1] else q) q = q ++ ks := by
  intro ks
  induction ks with
  | nil => intro q; simp
  | cons k rest ih =>
    intro q
    simp only [List.map_cons, List.foldl_cons, eq_self_iff_true, if_true]
    rw [ih (q ++ [k])]
    simp

theorem zeroKeys_all_zero (ks : List String) :
    zeroKeys (ks.map (fun k => (k, (0 : Int)))) = ks := by
  unfold zeroKeys
  rw [zeroKeys_all_zero_aux ks []]
  simp

theorem kahnFuel_all_zero_aux : ∀ (ks : List String) (n : Nat),
    (ks.map (fun k => (k, (0 : Int)))).foldl (fun acc kv => acc + 1 + kv.2.toNat) n =
      n + ks.length := by
  intro ks
  induction ks with
  | nil => intro n; simp
  | cons k rest ih =>
    intro n
    simp only [List.map_cons, List.foldl_cons, Int.toNat_zero, Nat.add_zero]
    rw [ih (n + 1)]
    simp only [List.length_cons]
    omega

theorem kahnFuel_all_zero (ks : List String) :
    kahnFuel (ks.map (fun k => (k, (0 : Int)))) = ks.length := by
  unfold kahnFuel
  rw [kahnFuel_all_zero_aux ks 0]
  omega

theorem kahnLoop_no_deps : ∀ (fuel : Nat) (queue : List String)
    (deg : List (String × Int)) (acc : List String),
    queue.length ≤ fuel → List.Sorted strLe queue →
    kahnLoop fuel queue deg [] acc = acc ++ queue := by
  intro fuel
  induction fuel with
  | zero =>
    intro queue deg acc hlen _
    cases queue with
    | nil => simp [kahnLoop]
    | cons q qs => simp at hlen
  | succ n ih =>
    intro queue deg acc hlen hs
    cases queue with
    | nil => simp [kahnLoop]
    | cons q qs =>
      unfold kahnLoop
      simp only [alookup, Option.getD_none, processDeps, List.append_nil]
      rw [show sortStrings qs = qs from List.Sorted.insertionSort_eq hs.of_cons]
      rw [ih qs deg (acc ++ [q]) (by simp at hlen; omega) hs.of_cons]
      simp

theorem buildActionMap_pres : ∀ (l : List Action) (m : List (String × Action)) (k : String),
    k ∉ l.map (fun a => resourceKey a.target) →
    alookup (buildActionMap l m) k = alookup m k := by
  intro l
  induction l with
  | nil => intro m k _; rfl
  | cons a rest ih =>
    intro m k hk
    simp only [List.map_cons, List.mem_cons] at hk
    push_neg at hk
    unfold buildActionMap
    rw [ih (aset m (resourceKey a.target) a) k hk.2]
    exact alookup_aset_ne m (resourceKey a.target) k a (fun h => hk.1 h.symm)

theorem alookup_aset_self {α : Type} : ∀ (m : List (String × α)) (k : String) (v : α),
    alookup (aset m k v) k = some v := by
  intro m
  induction m with
  | nil => intro k v; simp [aset, alookup]
  | cons kv rest ih =>
    intro k v
    cases kv with
    | mk k1 v1 =>
      unfold aset
      by_cases h : k1 = k
      · rw [if_pos h]
        unfold alookup
        rw [if_pos h]
      · rw [if_neg h]
        unfold alookup
        rw [if_neg h]
        exact ih k v

theorem buildActionMap_lookup : ∀ (l : List Action) (m : List (String × Action)),
    (l.map (fun a => resourceKey a.target)).Nodup →
    ∀ a ∈ l, alookup (buildActionMap l m) (resourceKey a.target) = some a := by
  intro l
  induction l with
  | nil => intro m _ a ha; simp at ha
  | cons b rest ih =>
    intro m hnodup a ha
    simp only [List.map_cons, List.nodup_cons] at hnodup
    rcases List.mem_cons.mp ha with rfl | ha2
    · unfold buildActionMap
      rw [buildActionMap_pres rest (aset m (resourceKey a.target) a) (resourceKey a.target) hnodup.1]
      exact alookup_aset_self m (resourceKey a.target) a
    · unfold buildActionMap
      exact ih (aset m (resourceKey b.target) b) hnodup.2 a ha2

theorem collectSorted_eq (amap : List (String × Action)) :
    ∀ (ks : List String) (res : List Action) (seen : List String),
    ks.Nodup → (∀ k ∈ ks, k ∉ seen) →
    (∀ k ∈ ks, ∃ a, alookup amap k = some a ∧ resourceKey a.target = k) →
    (collectSorted amap ks res seen).1.map (fun a => resourceKey a.target) =
      res.map (fun a => resourceKey a.target) ++ ks ∧
    (collectSorted amap ks res seen).2 = seen ++ ks := by
  intro ks
  induction ks with
  | nil =>
    intro res seen _ _ _
    simp [collectSorted]
  | cons k rest ih =>
    intro res seen hnodup hdisj hex
    obtain ⟨a, ha, hak⟩ := hex k (List.mem_cons_self k rest)
    simp only [List.nodup_cons] at hnodup
    unfold collectSorted
    simp only [ha]
    rw [if_neg (hdisj k (List.mem_cons_self k rest))]
    obtain ⟨h1, h2⟩ := ih (res ++ [a]) (seen ++ [k]) hnodup.2
      (by
        intro k2 hk2
        simp only [List.mem_append, List.mem_singleton]
        push_neg
        exact ⟨hdisj k2 (List.mem_cons_of_mem k hk2),
               fun hc => hnodup.1 (hc ▸ hk2)⟩)
      (fun k2 hk2 => hex k2 (List.mem_cons_of_mem k hk2))
    refine ⟨?_, ?_⟩
    · rw [h1]
      simp [hak]
    · rw [h2]
      simp

theorem addLeftovers_all_seen (seen : List String) : ∀ (l res : List Action),
    (∀ a ∈ l, resourceKey a.target ∈ seen) → addLeftovers seen l res = res := by
  intro l
  induction l with
  | nil => intro res _; rfl
  | cons a rest ih =>
    intro res hall
    unfold addLeftovers
    rw [if_pos (hall a (List.mem_cons_self a rest))]
    exact ih res (fun b hb => hall b (List.mem_cons_of_mem a hb))

/-! ### C8 — TopologicalSort and unmapped actions -/

/-- Three fixture actions with resource keys `a/p`, `b/q`, `c/r`. -/
def actA : Action := { plainActionW with target := { kind := "a", apiVersion := "v1", nspace := "", name := "p" } }

def actB : Action := { plainActionW with target := { kind := "b", apiVersion := "v1", nspace := "", name := "q" } }

def actC : Action := { plainActionW with target := { kind := "c", apiVersion := "v1", nspace := "", name := "r" } }

/-- C8 counterexample: with edge map `{b/q: [a/p]}`, action `actC`
(key `c/r`, which appears nowhere in the edge map) enters Kahn's
algorithm with in-degree zero and comes out FIRST (`[actC, actB,
actA]`), not at the end; likewise, with an edge map disjoint from both
actions, `[actA, actB]` comes back as `[actB, actA]`, breaking the
claimed preservation of relative input order. -/
theorem topo_unmapped_cx :
    TopologicalSort [actA, actB, actC] [("b/q", ["a/p"])] = [actC, actB, actA] ∧
    resourceKey actC.target = "c/r" ∧
    ¬ ("c/r" = "b/q") ∧ ¬ ("c/r" ∈ (["a/p"] : List String)) ∧
    ¬ actC = actA ∧
    TopologicalSort [actA, actB] [("x/x", ["y/y"])] = [actB, actA] ∧
    ¬ [actB, actA] = [actA, actB] := by
  refine ⟨by decide, rfl, by decide, by decide, by decide, by decide, by decide⟩

/-- C8 amended: an action whose resource key never appears in the edge
map is not appended at the end in input order; it participates in
Kahn's algorithm with in-degree zero.  In particular, whenever the
(non-empty) edge map's owner lists mention no action key — so every
action is "unmapped" in the claim's sense — the output is the actions
in REVERSE lexicographic key order (the reversal of the sorted,
deterministic Kahn order), for any actions with distinct keys. -/
theorem topo_unmapped_reverse_lex (actions : List Action) (ownerRefs : List (String × List String))
    (hnodup : (actions.map (fun a => resourceKey a.target)).Nodup)
    (howners : ∀ e ∈ ownerRefs, ∀ o ∈ e.2, ∀ a ∈ actions, resourceKey a.target ≠ o)
    (hne : ownerRefs ≠ []) :
    (TopologicalSort actions ownerRefs).map (fun a => resourceKey a.target) =
      (sortStrings (actions.map (fun a => resourceKey a.target))).reverse := by
  by_cases hacts : actions.isEmpty = true
  · have h0 : actions = [] := List.isEmpty_iff.mp hacts
    subst h0
    simp [TopologicalSort, sortStrings, List.insertionSort]
  · have hacts2 : actions.isEmpty = false := by
      rwa [Bool.not_eq_true] at hacts
    have hne2 : ownerRefs.isEmpty = false := by
      cases ownerRefs with
      | nil => exact absurd rfl hne
      | cons e rest => rfl
    have hTS : TopologicalSort actions ownerRefs =
        addLeftovers
          (collectSorted (buildActionMap actions [])
            ((kahnLoop (kahnFuel (buildEdges ownerRefs (initDegrees actions [])).1)
              (sortStrings (zeroKeys (buildEdges ownerRefs (initDegrees actions [])).1))
              (buildEdges ownerRefs (initDegrees actions [])).1
              (buildEdges ownerRefs (initDegrees actions [])).2 []).reverse) [] []).2
          actions
          (collectSorted (buildActionMap actions [])
            ((kahnLoop (kahnFuel (buildEdges ownerRefs (initDegrees actions [])).1)
              (sortStrings (zeroKeys (buildEdges ownerRefs (initDegrees actions [])).1))
              (buildEdges ownerRefs (initDegrees actions [])).1
              (buildEdges ownerRefs (initDegrees actions [])).2 []).reverse) [] []).1 := by
      unfold TopologicalSort
      rw [hacts2, hne2]
      simp
    set keys := actions.map (fun a => resourceKey a.target) with hkeys
    have hdeg0 : initDegrees actions [] = keys.map (fun k => (k, (0 : Int))) := by
      have h1 := initDegrees_disjoint actions [] hnodup (by simp)
      rw [h1, hkeys, List.map_map]
      simp
    have hdegnone : ∀ e ∈ ownerRefs, ∀ o ∈ e.2,
        alookup (keys.map (fun k => (k, (0 : Int)))) o = none := by
      intro e he o ho
      apply alookup_eq_none
      intro hmem
      simp only [List.map_map, List.mem_map] at hmem
      obtain ⟨a, ha, hka⟩ := hmem
      simp only [hkeys, List.mem_map] at ha
      obtain ⟨b, hb, hkb⟩ := ha
      exact howners e he o ho b hb (by rw [hkb]; exact hka)
    have hbe : buildEdges ownerRefs (initDegrees actions []) =
        (keys.map (fun k => (k, (0 : Int))), []) := by
      rw [hdeg0]
      exact buildEdges_unchanged ownerRefs _ hdegnone
    rw [hTS, hbe]
    simp only []
    rw [zeroKeys_all_zero keys, kahnFuel_all_zero keys]
    have hsortlen : (sortStrings keys).length = keys.length := List.length_insertionSort strLe keys
    have hkahn : kahnLoop keys.length (sortStrings keys) (keys.map (fun k => (k, (0 : Int)))) [] [] =
        [] ++ sortStrings keys := by
      apply kahnLoop_no_deps
      · rw [hsortlen]
      · exact List.sorted_insertionSort strLe keys
    rw [hkahn]
    simp only [List.nil_append]
    have hsknodup : ((sortStrings keys).reverse).Nodup := by
      rw [List.nodup_reverse]
      exact ((List.perm_insertionSort strLe keys).nodup_iff).mpr hnodup
    have hskmem : ∀ k ∈ (sortStrings keys).reverse, k ∈ keys := by
      intro k hk
      rw [List.mem_reverse] at hk
      exact (List.mem_insertionSort strLe).mp hk
    have hex : ∀ k ∈ (sortStrings keys).reverse,
        ∃ a, alookup (buildActionMap actions []) k = some a ∧ resourceKey a.target = k := by
      intro k hk
      have hk2 := hskmem k hk
      rw [hkeys] at hk2
      obtain ⟨a, ha, hka⟩ := List.mem_map.mp hk2
      refine ⟨a, ?_, hka⟩
      rw [← hka]
      exact buildActionMap_lookup actions [] hnodup a ha
    obtain ⟨hc1, hc2⟩ := collectSorted_eq (buildActionMap actions [])
      ((sortStrings keys).reverse) [] [] hsknodup (by simp) hex
    rw [hc2]
    rw [addLeftovers_all_seen ([] ++ (sortStrings keys).reverse) actions _ ?_]
    · rw [hc1]
      simp
    · intro a ha
      simp only [List.nil_append, List.mem_reverse]
      show resourceKey a.target ∈ List.insertionSort strLe keys
      rw [List.mem_insertionSort strLe, hkeys]
      exact List.mem_map_of_mem (fun x => resourceKey x.target) ha

/-- C8 witness: two unmapped actions under a disjoint, non-empty edge
map come out in reverse lexicographic key order. -/
theorem topo_unmapped_reverse_lex_witness :
    (TopologicalSort [actA, actB] [("x/x", ["y/y"])]).map (fun a => resourceKey a.target) =
      (sortStrings ([actA, actB].map (fun a => resourceKey a.target))).reverse :=
  topo_unmapped_reverse_lex [actA, actB] [("x/x", ["y/y"])] (by decide) (by decide) (by decide)

end Unstuck
